import Mathlib

/-!
Verification development for the Lichess puzzle-book generator (`src/main.py`).

The script filters a table of chess puzzles by rating and theme, advances each
retained puzzle one ply, translates coordinate moves to algebraic notation and
renders a LaTeX document.  This file gives a shallow embedding of that code:

* the puzzle table is a list of `(index label, Row)` pairs — pandas keeps the
  original index labels of a frame through boolean filtering, so the label is
  carried explicitly;
* the chess library (`python-chess`) is an external collaborator: the pure
  string-format validation of `chess.Move.from_uci` is embedded concretely,
  while board construction, `Board.san` and `Board.push` are abstracted as
  function parameters (`mkBoard`, `san`, `push`, and `pushFen` for the
  composite "parse FEN, push one move, re-serialise" used by the filter);
* Python string operations are embedded by structurally recursive functions on
  character lists so that every definition evaluates inside the kernel;
* fallible Python code (uncaught exceptions) is embedded with `Except`.
-/

namespace PuzzleBook

/-- Decidable equality for `Except`, needed to evaluate concrete runs. -/
instance {ε α : Type} [DecidableEq ε] [DecidableEq α] : DecidableEq (Except ε α) := fun a b =>
  match a, b with
  | .error e1, .error e2 =>
    if h : e1 = e2 then isTrue (by rw [h]) else isFalse (by simp [h])
  | .ok a1, .ok a2 =>
    if h : a1 = a2 then isTrue (by rw [h]) else isFalse (by simp [h])
  | .error _, .ok _ => isFalse (by simp)
  | .ok _, .error _ => isFalse (by simp)

/-- Split a character list at every character satisfying `p`, keeping empty
segments, as Python `str.split(sep)` does (`"".split(" ") == [""]`,
`"a  b".split(" ") == ["a", "", "b"]`). -/
def split_chars (p : Char → Bool) : List Char → List (List Char)
  | [] => [[]]
  | c :: cs =>
    let r := split_chars p cs
    if p c then [] :: r
    else
      match r with
      | [] => [[c]]
      | t :: ts => (c :: t) :: ts

/-- Python `s.split(sep)` for a one-character separator: empty fields kept. -/
def py_split_sep (sep : Char) (s : String) : List String :=
  (split_chars (fun c => c = sep) s.toList).map List.asString

/-- Python `s.split()` (no separator): split on whitespace, empty tokens
discarded, so `"".split() == []`. -/
def py_split_ws (s : String) : List String :=
  ((split_chars (fun c => c.isWhitespace) s.toList).filter (fun t => t ≠ [])).map List.asString

/-- Python `sep.join(l)`. -/
def join_sep (sep : String) : List String → String
  | [] => ""
  | [x] => x
  | x :: xs => x ++ sep ++ join_sep sep xs

/-- `pat` occurs at the start of `hay`. -/
def substr_at : List Char → List Char → Bool
  | [], _ => true
  | _ :: _, [] => false
  | p :: ps, h :: hs => p = h && substr_at ps hs

/-- `pat` occurs somewhere inside `hay`. -/
def has_substr (pat : List Char) : List Char → Bool
  | [] => substr_at pat []
  | c :: cs => substr_at pat (c :: cs) || has_substr pat cs

/-- Substring containment, modelling `pandas.Series.str.contains(theme)` on one
cell.  (`str.contains` matches a regular expression; on the plain alphanumeric
theme tags of the Lichess data this coincides with substring containment.) -/
def str_contains (hay pat : String) : Bool :=
  has_substr pat.toList hay.toList

/-- Digits-so-far accumulator for integer parsing. -/
def parse_digits_aux : Nat → List Char → Option Nat
  | acc, [] => some acc
  | acc, c :: cs => if c.isDigit then parse_digits_aux (10 * acc + (c.toNat - 48)) cs else none

/-- Parse a non-empty all-digit character list. -/
def parse_digits : List Char → Option Nat
  | [] => none
  | cs => parse_digits_aux 0 cs

/-- Model of `pd.to_numeric(cell, errors='coerce')` on one cell, restricted to
the optionally-signed integer literals that occur in the Rating column; any
other string coerces to missing (pandas `NaN`, here `none`). -/
def to_numeric (s : String) : Option Int :=
  match s.toList with
  | '-' :: cs => (parse_digits cs).map (fun v => -(v : Int))
  | cs => (parse_digits cs).map (fun v => (v : Int))

/-- Python truthiness of an optional numeric configuration value, as tested by
`if min_rating:` — `None` and `0` are falsy. -/
def truthy_int : Option Int → Bool
  | none => false
  | some v => decide (v ≠ 0)

/-- Python truthiness of an optional string configuration value, as tested by
`if themes:` — `None` and `""` are falsy. -/
def truthy_str : Option String → Bool
  | none => false
  | some s => decide (s ≠ "")

/-- One row of the puzzle table: the columns `filter_puzzles` touches.
`rating` is the raw string cell (the coerced numeric column value is a function
of the raw cell, so coercion is applied at each comparison site); `themes` is
`none` when the Themes cell is missing (pandas `NaN`). -/
structure Row where
  fen : String
  rating : String
  themes : Option String
  moves : String
deriving DecidableEq

/-- `data["Rating"] >= min_rating` on one row: a missing (`NaN`) rating
compares false. -/
def rating_keep_min (lo : Int) (r : Row) : Bool :=
  match to_numeric r.rating with
  | some v => decide (lo ≤ v)
  | none => false

/-- `data["Rating"] <= max_rating` on one row: a missing (`NaN`) rating
compares false. -/
def rating_keep_max (hi : Int) (r : Row) : Bool :=
  match to_numeric r.rating with
  | some v => decide (v ≤ hi)
  | none => false

/-- Lines 11–16 of `main.py`: coerce Rating, then filter by the lower and the
upper bound in turn, each guarded by Python truthiness of the bound. -/
def rating_stage (rows : List (Nat × Row)) (min_rating max_rating : Option Int) :
    List (Nat × Row) :=
  let rows1 :=
    if truthy_int min_rating then rows.filter (fun p => rating_keep_min (min_rating.getD 0) p.2)
    else rows
  if truthy_int max_rating then rows1.filter (fun p => rating_keep_max (max_rating.getD 0) p.2)
  else rows1

/-- `data["Themes"].str.contains(theme, na=False)` on one row: a missing Themes
cell is non-matching for every tag. -/
def tag_match (tag : String) (row_themes : Option String) : Bool :=
  match row_themes with
  | none => false
  | some s => str_contains s tag

/-- Lines 20–28 of `main.py`: the mask is initialised all-True; conjunctive
mode AND-s each tag's test into it, disjunctive mode OR-s each tag's test into
it (faithfully keeping the all-True initialisation in both branches). -/
def theme_mask (tags : List String) (all_themes : Bool) (row_themes : Option String) : Bool :=
  if all_themes then tags.foldl (fun acc t => acc && tag_match t row_themes) true
  else tags.foldl (fun acc t => acc || tag_match t row_themes) true

/-- Lines 18–30 of `main.py`: theme filtering, guarded by truthiness of the
`themes` configuration string, the tags obtained by `themes.split(' ')`. -/
def theme_stage (rows : List (Nat × Row)) (themes : Option String) (all_themes : Bool) :
    List (Nat × Row) :=
  if truthy_str themes then
    rows.filter (fun p => theme_mask (py_split_sep ' ' (themes.getD "")) all_themes p.2.themes)
  else rows

/-- The rating stage followed by the theme stage (lines 11–30). -/
def rating_theme_stage (rows : List (Nat × Row)) (themes : Option String) (all_themes : Bool)
    (min_rating max_rating : Option Int) : List (Nat × Row) :=
  theme_stage (rating_stage rows min_rating max_rating) themes all_themes

/-- Lines 33–38 of `main.py` on one row: split Moves with `str.split()`; with
at least two moves, replace FEN by the position after the first move and Moves
by the remaining moves joined by single spaces, else leave the row unchanged.
`pushFen fen uci` abstracts `board = chess.Board(fen); board.push(...); board.fen()`. -/
def advance_row (pushFen : String → String → String) (r : Row) : Row :=
  match py_split_ws r.moves with
  | m1 :: m2 :: rest => { r with fen := pushFen r.fen m1, moves := join_sep " " (m2 :: rest) }
  | _ => r

/-- Line 40 of `main.py`: the diagnostic printed for a row with fewer than two
moves.  `idx` is the row's pandas index label, as bound by `iterrows()`. -/
def row_diag (idx : Nat) (r : Row) : List String :=
  if 2 ≤ (py_split_ws r.moves).length then []
  else ["Skipping row " ++ toString (idx + 1) ++ ": Insufficient moves"]

/-- Lines 32–40 of `main.py`: the in-place per-row update pass, returned as the
updated rows plus the printed diagnostics (each row reads only its own original
cells, so the mutating loop is a map). -/
def advance_stage (pushFen : String → String → String) (rows : List (Nat × Row)) :
    List (Nat × Row) × List String :=
  (rows.map (fun p => (p.1, advance_row pushFen p.2)), rows.flatMap (fun p => row_diag p.1 p.2))

/-- Python slice `l[:k]` for an integer `k` (a negative `k` counts from the
end, as `iloc[:, :k]` would). -/
def py_slice_head {α : Type} (l : List α) (k : Int) : List α :=
  if 0 ≤ k then l.take k.toNat else l.take (l.length - (-k).toNat)

/-- Lines 8–44 of `main.py`: the whole `filter_puzzles` body.  The result pairs
the returned rows (with their pandas index labels) with the printed
diagnostics; `.error` models the uncaught `TypeError` raised by
`data.shape[0] <= n` at line 41 when the cap `n` is `None`. -/
def filter_puzzles (pushFen : String → String → String) (data : List (Nat × Row))
    (themes : Option String) (all_themes : Bool) (min_rating max_rating : Option Int)
    (n : Option Int) : Except String (List (Nat × Row) × List String) :=
  let d2 := rating_theme_stage data themes all_themes min_rating max_rating
  let st := advance_stage pushFen d2
  match n with
  | none => Except.error "TypeError: unsupported comparison between int and NoneType"
  | some k =>
    if (st.1.length : Int) ≤ k then Except.ok st
    else Except.ok (py_slice_head st.1 k, st.2)

/-- `chess.SQUARE_NAMES` file letters. -/
def FILE_NAMES : List Char := ['a', 'b', 'c', 'd', 'e', 'f', 'g', 'h']

/-- `chess.SQUARE_NAMES` rank digits. -/
def RANK_NAMES : List Char := ['1', '2', '3', '4', '5', '6', '7', '8']

/-- `chess.PIECE_SYMBOLS` without its leading `None` entry. -/
def PIECE_SYMBOLS : List Char := ['p', 'n', 'b', 'r', 'q', 'k']

/-- `chess.SQUARE_NAMES.index(s)`: square index `8 * rank + file`. -/
def square_index (s : String) : Option Nat :=
  match s.toList with
  | [f, r] =>
    match FILE_NAMES.findIdx? (fun c => c = f), RANK_NAMES.findIdx? (fun c => c = r) with
    | some fi, some ri => some (8 * ri + fi)
    | _, _ => none
  | _ => none

/-- `chess.PIECE_SYMBOLS.index(c)` (offset by the leading `None` entry). -/
def piece_index (c : Char) : Option Nat :=
  (PIECE_SYMBOLS.findIdx? (fun x => x = c)).map (fun i => i + 1)

/-- A coordinate move as `python-chess` represents it. -/
structure Move where
  from_square : Nat
  to_square : Nat
  promotion : Option Nat
deriving DecidableEq

/-- `chess.Move.from_uci`: accepts `"0000"` (null move) or a 4/5-character
string of two square names plus an optional promotion piece letter; every
other string raises `InvalidMoveError`, embedded as `.error`. -/
def from_uci (uci : String) : Except String Move :=
  if uci = "0000" then Except.ok ⟨0, 0, none⟩
  else if uci.length = 4 ∨ uci.length = 5 then
    let cs := uci.toList
    let promo : Option (Option Nat) :=
      if uci.length = 5 then
        match cs.drop 4 with
        | [c] => (piece_index c).map some
        | _ => none
      else some none
    match square_index (cs.take 2).asString, square_index ((cs.drop 2).take 2).asString, promo with
    | some f, some t, some p =>
      if f = t then Except.error ("invalid uci (use 0000 for null moves): " ++ uci)
      else Except.ok ⟨f, t, p⟩
    | _, _, _ => Except.error ("invalid uci: " ++ uci)
  else Except.error ("expected uci string to be of length 4 or 5: " ++ uci)

/-- The fallible part of one iteration of the `translate_moves` loop: parse the
coordinate move, render it (raising on an illegal move), push it. -/
def step_board {B : Type} (san : B → Move → Except String String) (push : B → Move → B)
    (b : B) (m : String) : Except String B :=
  match from_uci m with
  | .error e => .error e
  | .ok mv =>
    match san b mv with
    | .error e => .error e
    | .ok _ => .ok (push b mv)

/-- Lines 49–53 of `main.py`: the `for move in moves.split(" ")` loop.  `san`
abstracts `Board.san` (which raises on a move illegal in the current position)
and `push` abstracts `Board.push`. -/
def translate_loop {B : Type} (san : B → Move → Except String String) (push : B → Move → B) :
    B → List String → Except String (List String)
  | _, [] => .ok []
  | b, m :: ms =>
    match from_uci m with
    | .error e => .error e
    | .ok mv =>
      match san b mv with
      | .error e => .error e
      | .ok alg =>
        match translate_loop san push (push b mv) ms with
        | .error e => .error e
        | .ok rest => .ok (alg :: rest)

/-- Lines 46–54 of `main.py`: `translate_moves`.  `mkBoard` abstracts
`chess.Board(fen)`; note `moves.split(" ")` keeps empty tokens, so an empty
`moves` string produces the single token `""`. -/
def translate_moves {B : Type} (mkBoard : String → B)
    (san : B → Move → Except String String) (push : B → Move → B)
    (moves fen : String) : Except String String :=
  match translate_loop san push (mkBoard fen) (py_split_sep ' ' moves) with
  | .error e => .error e
  | .ok l => .ok (join_sep " " l)

/-- `chess.Board(fen).turn`: `some true` when the second whitespace-separated
FEN field is `"w"` (White to move), `some false` when it is `"b"`, and `none`
(a raised `ValueError`) otherwise.  Only the side-to-move field of FEN parsing
is modelled; the other fields do not influence `black_or_white`. -/
def fen_turn (fen : String) : Option Bool :=
  match (py_split_ws fen)[1]? with
  | some "w" => some true
  | some "b" => some false
  | _ => none

/-- Lines 56–60 of `main.py`: the turn indicator.  With `answer` true it yields
the white- or black-circle macro per side to move; with `answer` false it
yields the ellipsis prefix for Black to move and the empty string for White. -/
def black_or_white (fen : String) (answer : Bool) : Except String String :=
  match fen_turn fen with
  | none => Except.error ("ValueError: invalid fen: " ++ fen)
  | some t =>
    if answer then Except.ok (if t then "\x5cwhitecircle" else "\x5cblackcircle")
    else Except.ok (if t then "" else "... ")

/-- Line 79 of `main.py`: the section-header line of `generate_text`, with the
parameters in the function's declared order
`(puzzles, themes, n, min_rating, max_rating)`; numeric configuration values
appear through their decimal rendering, taken here as strings. -/
def generate_text_section (puzzles : List (Nat × Row)) (themes : String) (n : String)
    (min_rating : String) (max_rating : String) : String :=
  let _ := puzzles
  "\x7b\x5ccentering \x5csection*\x7bThe Lichess Book of " ++ n ++ " Puzzles covering "
    ++ themes ++ " theme(s) from " ++ min_rating ++ " to " ++ max_rating ++ "\x7d\x7d"

/-- Line 152 of `main.py`: the call
`generate_text(filtered_puzzles, themes, min_rating, max_rating, n)`, with the
arguments in the call site's positional order. -/
def main_section_header (filtered : List (Nat × Row))
    (themes min_rating max_rating n : String) : String :=
  generate_text_section filtered themes min_rating max_rating n

/-- A concrete stand-in for the abstracted position-update function, used in
concrete evaluations: it records which move was applied to which position. -/
def push_fen_mark (fen uci : String) : String := fen ++ ">" ++ uci

/-- Concrete row: two tags, three moves. -/
def row_ok : Row :=
  { fen := "F0", rating := "1500", themes := some "fork endgame", moves := "e2e4 e7e5 g1f3" }

/-- Concrete row: rating below 500. -/
def row_low : Row :=
  { fen := "F1", rating := "100", themes := some "fork", moves := "e2e4 e7e5" }

/-- Concrete row: a single move. -/
def row_single : Row :=
  { fen := "F2", rating := "1000", themes := some "fork", moves := "e7e5" }

/-- Concrete row: a negative rating. -/
def row_neg : Row :=
  { fen := "F3", rating := "-100", themes := some "fork", moves := "e2e4 e7e5" }

/-- The board state reached after a prefix of the move loop: the fallible steps
of `translate_moves` chained until the first failure. -/
def run_moves {B : Type} (san : B → Move → Except String String) (push : B → Move → B) :
    B → List String → Except String B
  | b, [] => .ok b
  | b, m :: ms =>
    match step_board san push b m with
    | .error e => .error e
    | .ok b1 => run_moves san push b1 ms

/-!  Helper lemmas about the embedded pipeline. -/

theorem filter_puzzles_some_eq (pushFen : String → String → String) (data : List (Nat × Row))
    (themes : Option String) (am : Bool) (mn mx : Option Int) (k : Int) :
    filter_puzzles pushFen data themes am mn mx (some k)
      = if ((advance_stage pushFen (rating_theme_stage data themes am mn mx)).1.length : Int) ≤ k
        then Except.ok (advance_stage pushFen (rating_theme_stage data themes am mn mx))
        else Except.ok
          (py_slice_head (advance_stage pushFen (rating_theme_stage data themes am mn mx)).1 k,
           (advance_stage pushFen (rating_theme_stage data themes am mn mx)).2) := rfl

theorem py_slice_head_subset {α : Type} (l : List α) (k : Int) : py_slice_head l k ⊆ l := by
  unfold py_slice_head
  split
  · exact List.take_subset _ _
  · exact List.take_subset _ _

theorem filter_out_sub_diags {pushFen : String → String → String} {data : List (Nat × Row)}
    {themes : Option String} {am : Bool} {mn mx : Option Int} {k : Int}
    {out : List (Nat × Row)} {diags : List String}
    (hok : filter_puzzles pushFen data themes am mn mx (some k) = Except.ok (out, diags)) :
    out ⊆ (advance_stage pushFen (rating_theme_stage data themes am mn mx)).1 ∧
      diags = (advance_stage pushFen (rating_theme_stage data themes am mn mx)).2 := by
  rw [filter_puzzles_some_eq] at hok
  split at hok
  · injection hok with h
    have h1 : out = (advance_stage pushFen (rating_theme_stage data themes am mn mx)).1 := by
      rw [h]
    have h2 : diags = (advance_stage pushFen (rating_theme_stage data themes am mn mx)).2 := by
      rw [h]
    constructor
    · intro p hp
      rw [h1] at hp
      exact hp
    · exact h2
  · injection hok with h
    obtain ⟨h1, h2⟩ := Prod.mk.injEq .. ▸ h
    constructor
    · rw [← h1]
      exact py_slice_head_subset _ _
    · exact h2.symm

theorem filter_out_take {pushFen : String → String → String} {data : List (Nat × Row)}
    {themes : Option String} {am : Bool} {mn mx : Option Int} {k : Int}
    {out : List (Nat × Row)} {diags : List String} (hk : 0 ≤ k)
    (hok : filter_puzzles pushFen data themes am mn mx (some k) = Except.ok (out, diags)) :
    out = (advance_stage pushFen (rating_theme_stage data themes am mn mx)).1.take k.toNat := by
  rw [filter_puzzles_some_eq] at hok
  split at hok
  case isTrue h =>
    injection hok with hst
    have hlen : (advance_stage pushFen (rating_theme_stage data themes am mn mx)).1.length
        ≤ k.toNat := (Int.le_toNat hk).mpr h
    have h1 : out = (advance_stage pushFen (rating_theme_stage data themes am mn mx)).1 := by
      rw [hst]
    rw [List.take_of_length_le hlen]
    exact h1
  case isFalse h =>
    injection hok with hst
    obtain ⟨h1, -⟩ := Prod.mk.injEq .. ▸ hst
    rw [← h1]
    unfold py_slice_head
    rw [if_pos hk]

theorem mem_rating_stage {rows : List (Nat × Row)} {mn mx : Option Int} {p : Nat × Row}
    (hp : p ∈ rating_stage rows mn mx) :
    p ∈ rows ∧ (truthy_int mn = true → rating_keep_min (mn.getD 0) p.2 = true) ∧
      (truthy_int mx = true → rating_keep_max (mx.getD 0) p.2 = true) := by
  unfold rating_stage at hp
  by_cases h1 : truthy_int mn = true <;> by_cases h2 : truthy_int mx = true <;>
    simp only [h1, h2, if_true, if_false, List.mem_filter] at hp <;>
    simp_all

theorem mem_theme_stage {rows : List (Nat × Row)} {themes : Option String} {am : Bool}
    {p : Nat × Row} (hp : p ∈ theme_stage rows themes am) :
    p ∈ rows ∧ (truthy_str themes = true →
      theme_mask (py_split_sep ' ' (themes.getD "")) am p.2.themes = true) := by
  unfold theme_stage at hp
  by_cases h1 : truthy_str themes = true <;>
    simp only [h1, if_true, if_false, List.mem_filter] at hp <;>
    simp_all

theorem advance_row_moves (pushFen : String → String → String) (r : Row) (m1 m2 : String)
    (rest : List String) (h : py_split_ws r.moves = m1 :: m2 :: rest) :
    advance_row pushFen r
      = { r with fen := pushFen r.fen m1, moves := join_sep " " (m2 :: rest) } := by
  unfold advance_row
  rw [h]

theorem advance_row_short (pushFen : String → String → String) (r : Row)
    (h : (py_split_ws r.moves).length < 2) : advance_row pushFen r = r := by
  unfold advance_row
  split
  case h_1 m1 m2 rest heq =>
    rw [heq] at h
    simp only [List.length_cons] at h
    omega
  case h_2 => rfl

theorem advance_stage_fst (pushFen : String → String → String) (rows : List (Nat × Row)) :
    (advance_stage pushFen rows).1 = rows.map (fun p => (p.1, advance_row pushFen p.2)) := rfl

theorem advance_stage_snd (pushFen : String → String → String) (rows : List (Nat × Row)) :
    (advance_stage pushFen rows).2 = rows.flatMap (fun p => row_diag p.1 p.2) := rfl

theorem translate_loop_cons_error {B : Type} (san : B → Move → Except String String)
    (push : B → Move → B) (b : B) (m : String) (ms : List String) (e : String)
    (hstep : step_board san push b m = Except.error e) :
    translate_loop san push b (m :: ms) = Except.error e := by
  unfold step_board at hstep
  cases hfu : from_uci m with
  | error e1 =>
    rw [hfu] at hstep
    simp only at hstep
    injection hstep with he
    simp only [translate_loop, hfu, he]
  | ok mv =>
    rw [hfu] at hstep
    simp only at hstep
    cases hsan : san b mv with
    | error e1 =>
      rw [hsan] at hstep
      simp only at hstep
      injection hstep with he
      simp only [translate_loop, hfu, hsan, he]
    | ok alg =>
      rw [hsan] at hstep
      simp only at hstep
      exact absurd hstep (by simp)

theorem translate_loop_cons_prop {B : Type} (san : B → Move → Except String String)
    (push : B → Move → B) (b b1 : B) (m : String) (ms : List String) (e : String)
    (hstep : step_board san push b m = Except.ok b1)
    (hrest : translate_loop san push b1 ms = Except.error e) :
    translate_loop san push b (m :: ms) = Except.error e := by
  unfold step_board at hstep
  cases hfu : from_uci m with
  | error e1 =>
    rw [hfu] at hstep
    simp only at hstep
    exact absurd hstep (by simp)
  | ok mv =>
    rw [hfu] at hstep
    simp only at hstep
    cases hsan : san b mv with
    | error e1 =>
      rw [hsan] at hstep
      simp only at hstep
      exact absurd hstep (by simp)
    | ok alg =>
      rw [hsan] at hstep
      simp only at hstep
      injection hstep with hb
      simp only [translate_loop, hfu, hsan, hb, hrest]

theorem translate_loop_run_error {B : Type} (san : B → Move → Except String String)
    (push : B → Move → B) (pre : List String) :
    ∀ (b b' : B) (bad : String) (post : List String) (e : String),
      run_moves san push b pre = Except.ok b' →
      step_board san push b' bad = Except.error e →
      translate_loop san push b (pre ++ bad :: post) = Except.error e := by
  induction pre with
  | nil =>
    intro b b' bad post e hrun hbad
    have hb : b = b' := by
      unfold run_moves at hrun
      injection hrun
    subst hb
    simpa using translate_loop_cons_error san push b bad post e hbad
  | cons m pre ih =>
    intro b b' bad post e hrun hbad
    unfold run_moves at hrun
    cases hstep : step_board san push b m with
    | error e1 =>
      rw [hstep] at hrun
      simp only at hrun
      exact absurd hrun (by simp)
    | ok b1 =>
      rw [hstep] at hrun
      simp only at hrun
      have hrest := ih b1 b' bad post e hrun hbad
      simpa using translate_loop_cons_prop san push b b1 m (pre ++ bad :: post) e hstep hrest

/-!  The claims. -/

/-- C1: the conjunctive theme mask is a true AND of the per-tag substring
tests, but the disjunctive mask is initialised all-True before being OR-ed, so
in disjunctive mode every row is retained even when no tag matches: here the
single tag "mate" does not occur in the row's Themes "fork endgame", yet the
row passes the theme stage and is returned by `filter_puzzles`. -/
theorem C1_disjunctive_filter_retains_nonmatching :
    str_contains "fork endgame" "mate" = false ∧
    theme_mask ["mate"] false (some "fork endgame") = true ∧
    filter_puzzles push_fen_mark [(0, row_ok)] (some "mate") false none none (some 5)
      = Except.ok ([(0, { fen := "F0>e2e4", rating := "1500", themes := some "fork endgame",
                          moves := "e7e5 g1f3" })], []) := by
  refine ⟨by decide, by decide, by decide⟩

/-- C2: every row retained by `filter_puzzles` is the one-ply advancement of an
input row carrying the same index label, and whenever that original row's
Moves field splits into at least two moves `m1 :: m2 :: rest`, the returned
row's Moves field is `m2 :: rest` joined by single spaces and its FEN field is
the position obtained by applying `m1` to the row's original position. -/
theorem C2_ply_advance (pushFen : String → String → String) (data : List (Nat × Row))
    (themes : Option String) (am : Bool) (mn mx : Option Int) (k : Int)
    (out : List (Nat × Row)) (diags : List String) (i : Nat) (r' : Row)
    (hok : filter_puzzles pushFen data themes am mn mx (some k) = Except.ok (out, diags))
    (hmem : (i, r') ∈ out) :
    ∃ r : Row, (i, r) ∈ data ∧ r' = advance_row pushFen r ∧
      ∀ m1 m2 rest, py_split_ws r.moves = m1 :: m2 :: rest →
        r'.fen = pushFen r.fen m1 ∧ r'.moves = join_sep " " (m2 :: rest) := by
  obtain ⟨hsub, -⟩ := filter_out_sub_diags hok
  have h1 := hsub hmem
  rw [advance_stage_fst] at h1
  obtain ⟨p, hp, hpe⟩ := List.mem_map.mp h1
  obtain ⟨j, r⟩ := p
  simp only [Prod.mk.injEq] at hpe
  obtain ⟨hji, hadv⟩ := hpe
  subst hji
  have hth := mem_theme_stage hp
  have hrt := mem_rating_stage hth.1
  refine ⟨r, hrt.1, hadv.symm, ?_⟩
  intro m1 m2 rest hsp
  rw [← hadv, advance_row_moves pushFen r m1 m2 rest hsp]
  exact ⟨rfl, rfl⟩

/-- C2 witness: the theorem applied to a concrete one-row table with no active
filters and a cap of 3. -/
theorem C2_ply_advance_witness :
    ∃ r : Row, (0, r) ∈ [(0, row_ok)] ∧
      ({ fen := "F0>e2e4", rating := "1500", themes := some "fork endgame",
         moves := "e7e5 g1f3" } : Row) = advance_row push_fen_mark r ∧
      ∀ m1 m2 rest, py_split_ws r.moves = m1 :: m2 :: rest →
        ({ fen := "F0>e2e4", rating := "1500", themes := some "fork endgame",
           moves := "e7e5 g1f3" } : Row).fen = push_fen_mark r.fen m1 ∧
        ({ fen := "F0>e2e4", rating := "1500", themes := some "fork endgame",
           moves := "e7e5 g1f3" } : Row).moves = join_sep " " (m2 :: rest) :=
  C2_ply_advance push_fen_mark [(0, row_ok)] none true none none 3
    [(0, { fen := "F0>e2e4", rating := "1500", themes := some "fork endgame",
           moves := "e7e5 g1f3" })] [] 0
    { fen := "F0>e2e4", rating := "1500", themes := some "fork endgame", moves := "e7e5 g1f3" }
    (by decide) (by decide)

/-- C3 counterexample: with a provided lower bound of 0, `filter_puzzles`
retains a row whose Rating is -100: Python's `if min_rating:` treats the
provided bound 0 as falsy and skips the comparison, so the claim "every
retained row's Rating satisfies lo ≤ Rating whenever lo is present" fails at
lo = 0 (an unparseable Rating is likewise retained then). -/
theorem C3_counterexample_zero_bound :
    filter_puzzles push_fen_mark [(0, row_neg)] none true (some 0) none (some 5)
      = Except.ok ([(0, { fen := "F3>e2e4", rating := "-100", themes := some "fork",
                          moves := "e7e5" })], [])
    ∧ to_numeric "-100" = some (-100) ∧ ¬ ((0 : Int) ≤ -100) := by
  refine ⟨by decide, by decide, by decide⟩

/-- C3 amended: rating bounds are applied only when present and nonzero
(Python truthiness); under each active (truthy) bound, every row retained by
`filter_puzzles` has a Rating that coerces numerically and satisfies the
bound — hence a row whose Rating fails numeric coercion is excluded whenever
any truthy rating bound is active. -/
theorem C3_rating_bounds (pushFen : String → String → String) (data : List (Nat × Row))
    (themes : Option String) (am : Bool) (mn mx : Option Int) (k : Int)
    (out : List (Nat × Row)) (diags : List String) (i : Nat) (r' : Row)
    (hok : filter_puzzles pushFen data themes am mn mx (some k) = Except.ok (out, diags))
    (hmem : (i, r') ∈ out) :
    (truthy_int mn = true → ∃ v, to_numeric r'.rating = some v ∧ mn.getD 0 ≤ v) ∧
    (truthy_int mx = true → ∃ v, to_numeric r'.rating = some v ∧ v ≤ mx.getD 0) := by
  obtain ⟨hsub, -⟩ := filter_out_sub_diags hok
  have h1 := hsub hmem
  rw [advance_stage_fst] at h1
  obtain ⟨p, hp, hpe⟩ := List.mem_map.mp h1
  obtain ⟨j, r⟩ := p
  simp only [Prod.mk.injEq] at hpe
  obtain ⟨hji, hadv⟩ := hpe
  have hrat : r'.rating = r.rating := by
    rw [← hadv]
    unfold advance_row
    split <;> rfl
  have hth := mem_theme_stage hp
  have hrt := mem_rating_stage hth.1
  rw [hrat]
  constructor
  · intro hmn
    have hk2 := hrt.2.1 hmn
    unfold rating_keep_min at hk2
    cases hc : to_numeric r.rating with
    | none =>
      rw [hc] at hk2
      simp at hk2
    | some v =>
      rw [hc] at hk2
      simp only at hk2
      exact ⟨v, rfl, of_decide_eq_true hk2⟩
  · intro hmx
    have hk2 := hrt.2.2 hmx
    unfold rating_keep_max at hk2
    cases hc : to_numeric r.rating with
    | none =>
      rw [hc] at hk2
      simp at hk2
    | some v =>
      rw [hc] at hk2
      simp only at hk2
      exact ⟨v, rfl, of_decide_eq_true hk2⟩

/-- C3 witness: the amended theorem applied with both bounds 1000 and 2000
active on a retained row of rating 1500. -/
theorem C3_rating_bounds_witness :
    (truthy_int (some 1000) = true →
      ∃ v, to_numeric ({ fen := "F0>e2e4", rating := "1500", themes := some "fork endgame",
                         moves := "e7e5 g1f3" } : Row).rating = some v
        ∧ (some (1000 : Int)).getD 0 ≤ v) ∧
    (truthy_int (some 2000) = true →
      ∃ v, to_numeric ({ fen := "F0>e2e4", rating := "1500", themes := some "fork endgame",
                         moves := "e7e5 g1f3" } : Row).rating = some v
        ∧ v ≤ (some (2000 : Int)).getD 0) :=
  C3_rating_bounds push_fen_mark [(0, row_ok)] none true (some 1000) (some 2000) 5
    [(0, { fen := "F0>e2e4", rating := "1500", themes := some "fork endgame",
           moves := "e7e5 g1f3" })] [] 0
    { fen := "F0>e2e4", rating := "1500", themes := some "fork endgame", moves := "e7e5 g1f3" }
    (by decide) (by decide)

/-- C4 counterexample: the skip diagnostic uses `idx + 1` where `idx` is the
pandas index label, i.e. the row's position in the originally loaded table.
Here the single-move row survives the rating filter as the only row of the
current pass (1-based pass position 1), yet the diagnostic says "row 2",
because the row's original index label is 1. -/
theorem C4_counterexample_row_index :
    filter_puzzles push_fen_mark [(0, row_low), (1, row_single)] none true (some 500) none
        (some 10)
      = Except.ok ([(1, row_single)], ["Skipping row 2: Insufficient moves"])
    ∧ "Skipping row 2: Insufficient moves" ≠ "Skipping row 1: Insufficient moves" := by
  refine ⟨by decide, by decide⟩

/-- C4 amended: a row that survives the rating and theme stages with fewer
than two moves is left unchanged and kept in the pass (processing continues),
and the emitted diagnostic identifies it by 1 plus its original index label in
the loaded table — a persistent identifier, not the row's 1-based position in
the current pass. -/
theorem C4_skip_unchanged_diag (pushFen : String → String → String) (data : List (Nat × Row))
    (themes : Option String) (am : Bool) (mn mx : Option Int) (k : Int)
    (out : List (Nat × Row)) (diags : List String) (i : Nat) (r : Row)
    (hok : filter_puzzles pushFen data themes am mn mx (some k) = Except.ok (out, diags))
    (hmem : (i, r) ∈ rating_theme_stage data themes am mn mx)
    (hlt : (py_split_ws r.moves).length < 2) :
    advance_row pushFen r = r ∧
    ("Skipping row " ++ toString (i + 1) ++ ": Insufficient moves") ∈ diags ∧
    (i, r) ∈ (advance_stage pushFen (rating_theme_stage data themes am mn mx)).1 := by
  obtain ⟨-, hdiags⟩ := filter_out_sub_diags hok
  have hadv := advance_row_short pushFen r hlt
  refine ⟨hadv, ?_, ?_⟩
  · rw [hdiags, advance_stage_snd]
    refine List.mem_flatMap.mpr ⟨(i, r), hmem, ?_⟩
    unfold row_diag
    rw [if_neg (Nat.not_le.mpr hlt)]
    exact List.mem_singleton.mpr rfl
  · rw [advance_stage_fst]
    refine List.mem_map.mpr ⟨(i, r), hmem, ?_⟩
    rw [hadv]

/-- C4 witness: the amended theorem applied to the concrete two-row table of
the counterexample. -/
theorem C4_skip_unchanged_diag_witness :
    advance_row push_fen_mark row_single = row_single ∧
    ("Skipping row " ++ toString (1 + 1) ++ ": Insufficient moves")
      ∈ ["Skipping row 2: Insufficient moves"] ∧
    (1, row_single) ∈ (advance_stage push_fen_mark
      (rating_theme_stage [(0, row_low), (1, row_single)] none true (some 500) none)).1 :=
  C4_skip_unchanged_diag push_fen_mark [(0, row_low), (1, row_single)] none true (some 500) none
    10 [(1, row_single)] ["Skipping row 2: Insufficient moves"] 1 row_single
    (by decide) (by decide) (by decide)

/-- C5: with a positive cap `k`, `filter_puzzles` returns exactly
`min k (number of rows passing the rating and theme stages)` rows, namely the
prefix of the passing rows in their original relative order (each advanced by
`advance_row`) — never a sample or a reordering. -/
theorem C5_result_cap (pushFen : String → String → String) (data : List (Nat × Row))
    (themes : Option String) (am : Bool) (mn mx : Option Int) (k : Int)
    (out : List (Nat × Row)) (diags : List String) (hk : 0 < k)
    (hok : filter_puzzles pushFen data themes am mn mx (some k) = Except.ok (out, diags)) :
    out.length = min k.toNat (rating_theme_stage data themes am mn mx).length ∧
    out = ((rating_theme_stage data themes am mn mx).map
      (fun p => (p.1, advance_row pushFen p.2))).take k.toNat := by
  have h1 := filter_out_take hk.le hok
  rw [advance_stage_fst] at h1
  constructor
  · rw [h1, List.length_take, List.length_map]
  · exact h1

/-- C5 witness: the theorem applied to a two-row table with cap 1: one row is
returned, the prefix of the passing rows. -/
theorem C5_result_cap_witness :
    ([(0, { fen := "F0>e2e4", rating := "1500", themes := some "fork endgame",
            moves := "e7e5 g1f3" })] : List (Nat × Row)).length
      = min (1 : Int).toNat (rating_theme_stage [(0, row_ok), (1, row_low)] none true
          none none).length ∧
    ([(0, { fen := "F0>e2e4", rating := "1500", themes := some "fork endgame",
            moves := "e7e5 g1f3" })] : List (Nat × Row))
      = ((rating_theme_stage [(0, row_ok), (1, row_low)] none true none none).map
          (fun p => (p.1, advance_row push_fen_mark p.2))).take (1 : Int).toNat :=
  C5_result_cap push_fen_mark [(0, row_ok), (1, row_low)] none true none none 1
    [(0, { fen := "F0>e2e4", rating := "1500", themes := some "fork endgame",
           moves := "e7e5 g1f3" })] [] (by decide) (by decide)

/-- C6 counterexample: on an empty move string, `translate_moves` fails rather
than returning an empty output, here with a concrete trivial board model:
Python's `"".split(" ")` is `[""]`, and the empty token fails UCI parsing. -/
theorem C6_counterexample_empty_moves :
    translate_moves (fun _ => (0 : Nat)) (fun _ _ => Except.ok "x") (fun b _ => b) "" "F0"
      = Except.error "expected uci string to be of length 4 or 5: " := by decide

/-- C6 amended: for every board model and every starting position, calling
`translate_moves` with an empty move string raises a move-parsing error —
the empty string splits (on the explicit separator) into one empty token
whose UCI parse fails — rather than yielding an empty output. -/
theorem C6_empty_moves_error {B : Type} (mkBoard : String → B)
    (san : B → Move → Except String String) (push : B → Move → B) (fen : String) :
    translate_moves mkBoard san push "" fen
      = Except.error ("expected uci string to be of length 4 or 5: " ++ "") := by
  have hstep : step_board san push (mkBoard fen) ""
      = Except.error ("expected uci string to be of length 4 or 5: " ++ "") := by
    have hfu : from_uci ""
        = Except.error ("expected uci string to be of length 4 or 5: " ++ "") := by decide
    unfold step_board
    rw [hfu]
  have hsp : py_split_sep ' ' "" = [""] := by decide
  unfold translate_moves
  rw [hsp, translate_loop_cons_error san push (mkBoard fen) "" [] _ hstep]

/-- C7: if the move string splits into `pre ++ bad :: post` where every move
of `pre` parses and renders successfully (reaching board state `b'`) and `bad`
is malformed or illegal for `b'`, then `translate_moves` fails hard with that
move's error and returns no partial output for the earlier moves. -/
theorem C7_hard_failure {B : Type} (mkBoard : String → B)
    (san : B → Move → Except String String) (push : B → Move → B)
    (moves fen : String) (pre post : List String) (bad e : String) (b' : B)
    (hsplit : py_split_sep ' ' moves = pre ++ bad :: post)
    (hpre : run_moves san push (mkBoard fen) pre = Except.ok b')
    (hbad : step_board san push b' bad = Except.error e) :
    translate_moves mkBoard san push moves fen = Except.error e := by
  unfold translate_moves
  rw [hsplit, translate_loop_run_error san push pre (mkBoard fen) b' bad post e hpre hbad]

/-- C7 witness: the theorem applied with a concrete counting board model to
the sequence "e2e4 xx9x", whose second move is malformed. -/
theorem C7_hard_failure_witness :
    translate_moves (fun _ => (0 : Nat)) (fun _ _ => Except.ok "m") (fun b _ => b + 1)
      "e2e4 xx9x" "F0" = Except.error "invalid uci: xx9x" :=
  C7_hard_failure (fun _ => (0 : Nat)) (fun _ _ => Except.ok "m") (fun b _ => b + 1)
    "e2e4 xx9x" "F0" ["e2e4"] [] "xx9x" "invalid uci: xx9x" 1
    (by decide) (by decide) (by decide)

/-- C8 counterexample: a cap of 0 does not cause an error or an undefined
result: `filter_puzzles` returns the well-defined empty row set (here on a
non-empty input table). -/
theorem C8_counterexample_zero_cap :
    filter_puzzles push_fen_mark [(0, row_ok)] none true none none (some 0)
      = Except.ok ([], []) := by decide

/-- C8 amended: an absent cap raises a TypeError at the `shape[0] <= n`
comparison; a cap of 0 does not error but yields a defined, empty result set
(the `min(cap, count)` rule extends to zero) — in neither case is the cap
silently interpreted as "no limit". -/
theorem C8_cap_none_and_zero (pushFen : String → String → String) (data : List (Nat × Row))
    (themes : Option String) (am : Bool) (mn mx : Option Int) :
    filter_puzzles pushFen data themes am mn mx none
      = Except.error "TypeError: unsupported comparison between int and NoneType" ∧
    ∃ diags, filter_puzzles pushFen data themes am mn mx (some 0) = Except.ok ([], diags) := by
  refine ⟨rfl, ⟨(advance_stage pushFen (rating_theme_stage data themes am mn mx)).2, ?_⟩⟩
  rw [filter_puzzles_some_eq]
  split
  case isTrue h =>
    have h0 : (advance_stage pushFen (rating_theme_stage data themes am mn mx)).1.length = 0 := by
      omega
    have hnil : (advance_stage pushFen (rating_theme_stage data themes am mn mx)).1 = [] :=
      List.length_eq_zero.mp h0
    rw [show advance_stage pushFen (rating_theme_stage data themes am mn mx)
        = ((advance_stage pushFen (rating_theme_stage data themes am mn mx)).1,
           (advance_stage pushFen (rating_theme_stage data themes am mn mx)).2) from rfl, hnil]
  case isFalse h =>
    rw [show py_slice_head
        (advance_stage pushFen (rating_theme_stage data themes am mn mx)).1 (0 : Int)
        = [] from rfl]

/-- C9: for a position whose side-to-move field parses, the puzzle view
(`answer = true`) yields the white-circle symbol exactly when White is to move
and the black-circle symbol exactly when Black is to move; the solution view
(`answer = false`) yields the ellipsis prefix exactly when Black (the second
player) is to move and the empty string exactly when White is. -/
theorem C9_turn_indicator (fen : String) (t : Bool) (h : fen_turn fen = some t) :
    (black_or_white fen true = Except.ok "\x5cwhitecircle" ↔ t = true) ∧
    (black_or_white fen true = Except.ok "\x5cblackcircle" ↔ t = false) ∧
    (black_or_white fen false = Except.ok "... " ↔ t = false) ∧
    (black_or_white fen false = Except.ok "" ↔ t = true) := by
  cases t
  case false =>
    have e1 : black_or_white fen true = Except.ok "\x5cblackcircle" := by
      unfold black_or_white
      rw [h]
      rfl
    have e2 : black_or_white fen false = Except.ok "... " := by
      unfold black_or_white
      rw [h]
      rfl
    rw [e1, e2]
    decide
  case true =>
    have e1 : black_or_white fen true = Except.ok "\x5cwhitecircle" := by
      unfold black_or_white
      rw [h]
      rfl
    have e2 : black_or_white fen false = Except.ok "" := by
      unfold black_or_white
      rw [h]
      rfl
    rw [e1, e2]
    decide

/-- C9 witness: the theorem applied to a concrete position with White to
move. -/
theorem C9_turn_indicator_witness :
    (black_or_white "8/8/8/8/8/8/8/8 w - - 0 1" true = Except.ok "\x5cwhitecircle"
      ↔ true = true) ∧
    (black_or_white "8/8/8/8/8/8/8/8 w - - 0 1" true = Except.ok "\x5cblackcircle"
      ↔ true = false) ∧
    (black_or_white "8/8/8/8/8/8/8/8 w - - 0 1" false = Except.ok "... " ↔ true = false) ∧
    (black_or_white "8/8/8/8/8/8/8/8 w - - 0 1" false = Except.ok "" ↔ true = true) :=
  C9_turn_indicator "8/8/8/8/8/8/8/8 w - - 0 1" true (by decide)

/-- C10: `main` passes `(filtered, themes, min_rating, max_rating, n)` to
`generate_text`'s parameters `(puzzles, themes, n, min_rating, max_rating)`,
so for every configuration the rendered section header shows the configured
minimum rating in the puzzle-count slot, the configured maximum rating in the
minimum-rating slot, and the configured cap in the maximum-rating slot. -/
theorem C10_header_slots (filtered : List (Nat × Row))
    (themes min_rating max_rating n : String) :
    main_section_header filtered themes min_rating max_rating n
      = "\x7b\x5ccentering \x5csection*\x7bThe Lichess Book of " ++ min_rating
        ++ " Puzzles covering " ++ themes ++ " theme(s) from " ++ max_rating
        ++ " to " ++ n ++ "\x7d\x7d" := rfl

end PuzzleBook
